import Mathlib

/-!
Verification of the dual-backend CI job status resolution engine
(`mozci/query_jobs.py`) and the time-partitioned archival resolver
(`mozci/sources/buildjson.py`).

The Python code is shallowly embedded: dictionaries with known fields become
structures with `Option` fields (`none` marks an absent key), Python
exceptions become an explicit `Err` type threaded through `Except`, and the
two pieces of ambient mutable state — the archival day-partition cache
`BUILDS_DAY_INDEX` and the external world (current wall-clock time, the
contents of the rolling `builds-4hr.js` partition and of each day partition)
— are passed explicitly.  Every file fetch performed through `_fetch_file`
is recorded in an explicit fetch log, so claims about caching behaviour can
be stated as claims about that log.
-/

namespace Mozci

/-- Python: `PENDING, RUNNING, COALESCED, UNKNOWN = range(-4, 0)`. -/
def PENDING : Int := -4

/-- Second element of `range(-4, 0)`. -/
def RUNNING : Int := -3

/-- Third element of `range(-4, 0)`. -/
def COALESCED : Int := -2

/-- Fourth element of `range(-4, 0)`. -/
def UNKNOWN : Int := -1

/-- Python: `SUCCESS, WARNING, FAILURE, SKIPPED, EXCEPTION, RETRY, CANCELLED = range(7)`. -/
def SUCCESS : Int := 0

/-- Second element of `range(7)`. -/
def WARNING : Int := 1

/-- Third element of `range(7)`. -/
def FAILURE : Int := 2

/-- Fourth element of `range(7)`. -/
def SKIPPED : Int := 3

/-- Fifth element of `range(7)`. -/
def EXCEPTION : Int := 4

/-- Sixth element of `range(7)`. -/
def RETRY : Int := 5

/-- Seventh element of `range(7)`. -/
def CANCELLED : Int := 6

/-- The Python exceptions that the embedded code can raise.
`buildapiError`, `treeherderError` and `buildjsonError` are the classes
imported from `mozci.errors` (that module is outside the embedded sources;
modelled from the spec, which describes them as a small set of distinct
signaled failures, so each is its own constructor, distinct from a bare
`Exception`).  `pythonException` is a bare `raise Exception(...)`,
`nameError` is an `UnboundLocalError` from referencing an unassigned local,
`keyError` a failed dictionary lookup and `indexError` a failed list
index. -/
inductive Err where
  | buildapiError : Err
  | treeherderError : Err
  | buildjsonError : Err
  | pythonException : Err
  | nameError : Err
  | keyError : String → Err
  | indexError : Err
deriving DecidableEq

/-- One element of a buildapi job record's `"requests"` list: carries the
scheduling identifier, the completion timestamp and the declared revision
(fields `request_id`, `complete_at`, `revision`). -/
structure BuildRequest where
  request_id : Nat
  complete_at : Int
  revision : String
deriving DecidableEq

/-- A raw job record returned by the self-serve polling API, restricted to
the fields `BuildApi` reads.  `status = none` means the `"status"` key is
absent; `status = some none` means the key is present with value `null`.
`endtime` models `job.get("endtime")`, whose result is `None` both when the
key is absent and when it is `null`, so a single `Option` suffices.
`requests = none` means the `"requests"` key is absent; `request_id` is the
optional top-level `"request_id"` key. -/
structure BuildapiJob where
  buildername : String
  status : Option (Option Int)
  endtime : Option Int
  requests : Option (List BuildRequest)
  request_id : Option Nat
deriving DecidableEq

/-- A record from a buildjson archival partition file, restricted to the
fields the resolver reads: the top-level `"request_ids"` list, the
`"request_ids"` list nested under `"properties"` (the two are not
guaranteed consistent), and the revision string under `"properties"`. -/
structure BuildjsonJob where
  request_ids : List Nat
  properties_request_ids : List Nat
  properties_revision : String
deriving DecidableEq

/-- The external world as seen by the archival resolver: the current UTC
wall-clock time in epoch seconds (`utc_dt()`), the current contents of the
rolling-window partition `builds-4hr.js`, and the current contents of each
day partition `builds-<day>.js`, indexed by UTC day number.  The code under
verification is single-threaded and blocking, so the world is held fixed
across one resolution. -/
structure World where
  now : Int
  builds4hr : List BuildjsonJob
  buildsDay : Int → List BuildjsonJob

/-- The in-memory day-partition cache `BUILDS_DAY_INDEX`, an association
list from UTC day number to the partition contents loaded for that day. -/
def Cache : Type := List (Int × List BuildjsonJob)

/-- Lookup of a day in the cache (`date in BUILDS_DAY_INDEX` followed by
`BUILDS_DAY_INDEX[date]`). -/
def lookupDay : Cache → Int → Option (List BuildjsonJob)
  | [], _ => none
  | (d, js) :: rest, x => if x = d then some js else lookupDay rest x

/-- Python `utc_day(t)` renders the UTC calendar day of epoch second `t` as
a date string; only the identity of the day matters here, so the day is
modelled as the floor of `t / 86400` (equal day numbers exactly when equal
date strings). -/
def utc_day (t : Int) : Int := t.fdiv 86400

/-- Python constant `BUILDS_4HR_FILE = "builds-4hr.js"`. -/
def BUILDS_4HR_FILE : String := "builds-4hr.js"

/-- Python `BUILDS_DAY_FILE % date` with our day-number rendering of the
date. -/
def builds_day_file (d : Int) : String := "builds-" ++ toString d ++ ".js"

/-- Python `_find_job(request_id, jobs, loaded_from)`: return the first job
in `jobs` whose union of `properties["request_ids"]` and top-level
`request_ids` contains `request_id` (`request_id in list(set(prop + root))`
is membership in the union of the two lists). -/
def find_job (request_id : Nat) (jobs : List BuildjsonJob) : Option BuildjsonJob :=
  jobs.find? fun job =>
    (job.properties_request_ids ++ job.request_ids).contains request_id

/-- Python `query_job_data(complete_at, request_id)`, with the globals made
explicit.  Returns the outcome (found record, or the exception raised), the
updated `BUILDS_DAY_INDEX`, and the list of files fetched through
`_fetch_file` during the call.

Branching follows the source: if the job completed less than 4 hours ago
(`(utc_dt() - then).total_seconds() / 3600 < 4`, i.e. `now - complete_at <
14400`), fetch and search the rolling window; otherwise, if the completion
day is the current UTC day, fetch that day partition fresh (never reading
or writing the cache); otherwise serve the day partition from the cache,
fetching and inserting it only on a cache miss.

When no record is found the source executes
`raise Exception("... grep in %s for %d ..." % (filename, request_id))`;
in the rolling-window branch the local `filename` was never assigned, so
evaluating the message raises `UnboundLocalError` instead (`nameError`
here); in the two day branches `filename` is bound and a bare `Exception`
is raised (`pythonException`).  The function never returns a falsy value:
it returns a found record or raises. -/
def query_job_data (w : World) (cache : Cache) (complete_at : Int) (request_id : Nat) :
    Except Err BuildjsonJob × Cache × List String :=
  let date := utc_day complete_at
  if w.now - complete_at < 14400 then
    match find_job request_id w.builds4hr with
    | some job => (.ok job, cache, [BUILDS_4HR_FILE])
    | none => (.error .nameError, cache, [BUILDS_4HR_FILE])
  else
    let filename := builds_day_file date
    if utc_day w.now = date then
      match find_job request_id (w.buildsDay date) with
      | some job => (.ok job, cache, [filename])
      | none => (.error .pythonException, cache, [filename])
    else
      match lookupDay cache date with
      | some jobs =>
        match find_job request_id jobs with
        | some job => (.ok job, cache, [])
        | none => (.error .pythonException, cache, [])
      | none =>
        let jobs := w.buildsDay date
        match find_job request_id jobs with
        | some job => (.ok job, (date, jobs) :: cache, [filename])
        | none => (.error .pythonException, (date, jobs) :: cache, [filename])

/-- Python `BuildApi._is_coalesced(job)`: read the first entry of
`job["requests"]` (`KeyError` if the key is absent, `IndexError` if the
list is empty), resolve it through `query_job_data`, then compare the first
12 characters of the archival revision with the first 12 characters of the
declared revision.  The source also contains `if not status_data: return
RUNNING`, but `query_job_data` either returns a found (truthy) record or
raises, so that branch is unreachable and has no counterpart here. -/
def is_coalesced (w : World) (cache : Cache) (job : BuildapiJob) :
    Except Err Int × Cache × List String :=
  match job.requests with
  | none => (.error (.keyError "requests"), cache, [])
  | some [] => (.error .indexError, cache, [])
  | some (req :: _) =>
    match (query_job_data w cache req.complete_at req.request_id).1 with
    | .ok status_data =>
      if status_data.properties_revision.take 12 ≠ req.revision.take 12 then
        (.ok COALESCED, (query_job_data w cache req.complete_at req.request_id).2)
      else
        (.ok SUCCESS, (query_job_data w cache req.complete_at req.request_id).2)
    | .error e => (.error e, (query_job_data w cache req.complete_at req.request_id).2)

/-- Python `BuildApi.get_job_status(job)`: absent status key gives
`PENDING`; a `null` status gives `RUNNING` when `job.get("endtime")` is
`None` and `UNKNOWN` otherwise; `WARNING, FAILURE, EXCEPTION, RETRY,
CANCELLED` pass through; `SUCCESS` is resolved through the coalescing
check; any other value raises `BuildapiError("Unexpected status")`. -/
def get_job_status (w : World) (cache : Cache) (job : BuildapiJob) :
    Except Err Int × Cache × List String :=
  match job.status with
  | none => (.ok PENDING, cache, [])
  | some none =>
    if job.endtime = none then (.ok RUNNING, cache, []) else (.ok UNKNOWN, cache, [])
  | some (some status) =>
    if status = WARNING ∨ status = FAILURE ∨ status = EXCEPTION ∨
        status = RETRY ∨ status = CANCELLED then
      (.ok status, cache, [])
    else if status = SUCCESS then
      is_coalesced w cache job
    else
      (.error .buildapiError, cache, [])

/-- Python `BuildApi.get_buildapi_request_id(repo_name, job)`: if the
record has a `"requests"` key return `job["requests"][0]["request_id"]`
(an empty list raises `IndexError`), otherwise return the top-level
`job["request_id"]` (`KeyError` if that key is absent too). -/
def get_buildapi_request_id (job : BuildapiJob) : Except Err Nat :=
  match job.requests with
  | some [] => .error .indexError
  | some (r :: _) => .ok r.request_id
  | none =>
    match job.request_id with
    | some rid => .ok rid
    | none => .error (.keyError "request_id")

/-- A raw job record returned by the Treeherder jobs API, restricted to
the fields `TreeherderApi.get_job_status` reads. -/
structure TreeherderJob where
  job_coalesced_to_guid : Option String
  result : String
  state : String
deriving DecidableEq

/-- The fixed translation table `status_dict` of
`TreeherderApi.get_job_status`, as the literal list of its entries. -/
def status_dict : List (String × Int) :=
  [("success", SUCCESS),
   ("busted", FAILURE),
   ("testfailed", FAILURE),
   ("skipped", SKIPPED),
   ("exception", EXCEPTION),
   ("retry", RETRY),
   ("usercancel", CANCELLED)]

/-- Dictionary lookup in a literal table (`status_dict[key]` returns the
value, or raises `KeyError` when absent — the caller decides). -/
def lookupTable : List (String × Int) → String → Option Int
  | [], _ => none
  | (k, v) :: rest, x => if x = k then some v else lookupTable rest x

/-- Python `TreeherderApi.get_job_status(job)`: a non-null
`job_coalesced_to_guid` gives `COALESCED`; result `"unknown"` branches on
the state (`pending`, `running`, otherwise `UNKNOWN`); state `"completed"`
evaluates `status_dict[job["result"]]`, which raises `KeyError` for a
result string absent from the table; any other combination raises
`TreeherderError("Unexpected status")`. -/
def th_get_job_status (job : TreeherderJob) : Except Err Int :=
  if job.job_coalesced_to_guid ≠ none then
    .ok COALESCED
  else if job.result = "unknown" then
    if job.state = "pending" then .ok PENDING
    else if job.state = "running" then .ok RUNNING
    else .ok UNKNOWN
  else if job.state = "completed" then
    match lookupTable status_dict job.result with
    | some v => .ok v
    | none => .error (.keyError job.result)
  else
    .error .treeherderError

/-- Insertion into a Python `set` modelled as a duplicate-free list:
adding an already-present element is a no-op. -/
def insertSet (s : List String) (b : String) : List String :=
  if b ∈ s then s else b :: s

/-- Python dictionary update `m[b] = v`: overwrite the binding for `b` if
present, append it otherwise. -/
def updateAssoc : List (String × Nat) → String → Nat → List (String × Nat)
  | [], b, v => [(b, v)]
  | (k, w) :: rest, b, v =>
    if k = b then (b, v) :: rest else (k, w) :: updateAssoc rest b v

/-- Python dictionary lookup `m[b]` (the callers below only evaluate it on
present keys). -/
def lookupAssoc : List (String × Nat) → String → Option Nat
  | [], _ => none
  | (k, v) :: rest, b => if b = k then some v else lookupAssoc rest b

/-- The loop of `BuildApi.find_all_jobs_by_status`, threading the mutable
loop state (`request_id_by_buildername`, `right_status_buildernames`,
`wrong_status_buildernames`) and the day-partition cache.  Each iteration
runs `get_job_status` inside `try ... except BuildjsonError`: a
`BuildjsonError` from the body is logged and the job skipped, any other
exception propagates and aborts the whole call. -/
def find_all_loop (w : World) (target : Int) :
    List BuildapiJob → Cache → List (String × Nat) → List String → List String →
      Except Err (List (String × Nat) × List String × List String) × Cache
  | [], cache, m, right, wrong => (.ok (m, right, wrong), cache)
  | job :: rest, cache, m, right, wrong =>
    match (get_job_status w cache job).1 with
    | .ok s =>
      if s = target then
        match get_buildapi_request_id job with
        | .ok rid =>
          find_all_loop w target rest (get_job_status w cache job).2.1
            (updateAssoc m job.buildername rid) (insertSet right job.buildername) wrong
        | .error .buildjsonError =>
          find_all_loop w target rest (get_job_status w cache job).2.1 m right wrong
        | .error e => (.error e, (get_job_status w cache job).2.1)
      else
        find_all_loop w target rest (get_job_status w cache job).2.1 m right
          (insertSet wrong job.buildername)
    | .error .buildjsonError =>
      find_all_loop w target rest (get_job_status w cache job).2.1 m right wrong
    | .error e => (.error e, (get_job_status w cache job).2.1)

/-- Python `BuildApi.find_all_jobs_by_status(repo_name, revision, status)`
applied to the job list fetched for the scope: run the loop, subtract the
wrong-status builder names from the right-status ones, collect each
remaining builder name's recorded request id and sort ascending.  (Every
remaining name has a recorded id, so the lookup cannot fail; `filterMap`
keeps the embedding total.) -/
def find_all_jobs_by_status (w : World) (cache : Cache) (all_jobs : List BuildapiJob)
    (target : Int) : Except Err (List Nat) × Cache :=
  match find_all_loop w target all_jobs cache [] [] [] with
  | (.ok (m, right, wrong), cache2) =>
    let buildernames := right.filter fun b => decide (¬ b ∈ wrong)
    (.ok (List.insertionSort (· ≤ ·) (buildernames.filterMap (lookupAssoc m))), cache2)
  | (.error e, cache2) => (.error e, cache2)

/-- The value component of `query_job_data`, as a pure function of the
world: the searched partition is determined by the completion timestamp
alone, so under a cache that agrees with the world the stateful resolver
returns exactly this. -/
def query_job_data_pure (w : World) (complete_at : Int) (request_id : Nat) :
    Except Err BuildjsonJob :=
  if w.now - complete_at < 14400 then
    match find_job request_id w.builds4hr with
    | some job => .ok job
    | none => .error .nameError
  else
    match find_job request_id (w.buildsDay (utc_day complete_at)) with
    | some job => .ok job
    | none => .error .pythonException

/-- The value component of `get_job_status`, as a pure function of the
world (see `query_job_data_pure`). -/
def get_job_status_pure (w : World) (job : BuildapiJob) : Except Err Int :=
  match job.status with
  | none => .ok PENDING
  | some none => if job.endtime = none then .ok RUNNING else .ok UNKNOWN
  | some (some status) =>
    if status = WARNING ∨ status = FAILURE ∨ status = EXCEPTION ∨
        status = RETRY ∨ status = CANCELLED then
      .ok status
    else if status = SUCCESS then
      match job.requests with
      | none => .error (.keyError "requests")
      | some [] => .error .indexError
      | some (req :: _) =>
        match query_job_data_pure w req.complete_at req.request_id with
        | .ok status_data =>
          if status_data.properties_revision.take 12 ≠ req.revision.take 12 then
            .ok COALESCED
          else
            .ok SUCCESS
        | .error e => .error e
    else
      .error .buildapiError

/-- A cache state agrees with the world: every day partition it holds is
the partition the world serves for that day.  The empty cache satisfies
this, and the resolver only ever inserts partitions it just fetched from
the world, so the property is an invariant of every run. -/
def CacheConsistent (w : World) (c : Cache) : Prop :=
  ∀ d js, lookupDay c d = some js → js = w.buildsDay d

/-- Decidable equality of outcomes, so concrete runs can be checked by
`decide`. -/
instance {ε α : Type} [DecidableEq ε] [DecidableEq α] : DecidableEq (Except ε α) := fun x y =>
  match x, y with
  | .ok a, .ok b =>
    if h : a = b then .isTrue (by rw [h]) else .isFalse (by intro hh; cases hh; exact h rfl)
  | .ok _, .error _ => .isFalse (by intro hh; cases hh)
  | .error _, .ok _ => .isFalse (by intro hh; cases hh)
  | .error e, .error f =>
    if h : e = f then .isTrue (by rw [h]) else .isFalse (by intro hh; cases hh; exact h rfl)

/-- A world at epoch second 14400 with an empty rolling-window partition
and empty day partitions. -/
def worldRolling : World := ⟨14400, [], fun _ => []⟩

/-- A polling job reported SUCCESS whose only request completed one hour
before `worldRolling.now` and whose scheduling id 42 is absent from the
rolling-window partition. -/
def jobSuccessRolling : BuildapiJob :=
  ⟨"b", some (some 0), some 1, some [⟨42, 10800, "abc"⟩], none⟩

/-- A world whose current time is epoch second 1000000 (UTC day 11), with
all partitions empty. -/
def worldAgg : World := ⟨1000000, [], fun _ => []⟩

/-- A SUCCESS-reported job whose request completed on past UTC day 0, with
scheduling id 7 absent from that day partition: its archival lookup
raises. -/
def jobAggBroken : BuildapiJob :=
  ⟨"A", some (some 0), some 1, some [⟨7, 100, "abc"⟩], none⟩

/-- A plain FAILURE job (no archival lookup involved) with top-level
request id 5. -/
def jobAggGood : BuildapiJob := ⟨"B", some (some 2), some 1, none, some 5⟩

/-- A results-set job in state `completed` whose result string `bogus` is
absent from the translation table. -/
def thJobBogus : TreeherderJob := ⟨none, "bogus", "completed"⟩

/-- A results-set job in state `completed` with result `busted`. -/
def thJobBusted : TreeherderJob := ⟨none, "busted", "completed"⟩

/-- An archival record with scheduling id 42 and revision
`abcdefghijkl0000` (12-character prefix `abcdefghijkl`). -/
def archivalRecord : BuildjsonJob := ⟨[42], [], "abcdefghijkl0000"⟩

/-- A world at epoch second 0 whose rolling-window partition contains
`archivalRecord`. -/
def worldArchival : World := ⟨0, [archivalRecord], fun _ => []⟩

/-- A request whose declared revision shares the 12-character prefix of
`archivalRecord`. -/
def requestMatching : BuildRequest := ⟨42, -100, "abcdefghijklZZ"⟩

/-- A request whose declared revision differs from `archivalRecord` within
the first 12 characters. -/
def requestDiffering : BuildRequest := ⟨42, -100, "zzzdefghijklZZ"⟩

/-- A SUCCESS-reported polling job carrying `requestMatching`. -/
def jobRevMatching : BuildapiJob :=
  ⟨"b", some (some 0), some 1, some [requestMatching], none⟩

/-- A SUCCESS-reported polling job carrying `requestDiffering`. -/
def jobRevDiffering : BuildapiJob :=
  ⟨"b", some (some 0), some 1, some [requestDiffering], none⟩

/-- A world at epoch second 1000000 (UTC day 11) whose day partition for
day 0 contains `archivalRecord`. -/
def worldDay : World := ⟨1000000, [], fun d => if d = 0 then [archivalRecord] else []⟩

/-- A polling job record with no `"status"` key. -/
def jobNoStatus : BuildapiJob := ⟨"b", none, none, none, none⟩

/-- A polling job record whose `"status"` key is `null` and with no end
time. -/
def jobNullStatus : BuildapiJob := ⟨"b", some none, none, none, none⟩

/-- A polling job record whose `"status"` key is `null` with an end time
present. -/
def jobNullStatusEnded : BuildapiJob := ⟨"b", some none, some 9, none, none⟩

/-- A polling job record with both a `"requests"` list and a top-level
`"request_id"`. -/
def jobBothIds : BuildapiJob := ⟨"b", none, none, some [⟨8, 0, "r"⟩], some 99⟩

/-- A polling job record with only a top-level `"request_id"`. -/
def jobTopId : BuildapiJob := ⟨"b", none, none, none, some 99⟩

/-- A polling job record whose numeric status equals the SKIPPED code 3. -/
def jobSkipped : BuildapiJob := ⟨"b", some (some 3), some 1, none, some 4⟩

/-- C1: the spec says a SUCCESS-reported polling job completed less than 4
hours ago whose scheduling id is absent from the rolling-window partition
resolves to RUNNING without error, and `_is_coalesced` indeed contains a
branch returning RUNNING for a missing record; but `query_job_data` raises
instead of returning a falsy value (and its raise statement even references
the unassigned local `filename` in this branch, an `UnboundLocalError`), so
`get_job_status` propagates an exception and never reaches that branch. -/
theorem rolling_window_absent_raises :
    (get_job_status worldRolling [] jobSuccessRolling).1 = .error .nameError ∧
    (get_job_status worldRolling [] jobSuccessRolling).1 ≠ .ok RUNNING := by
  decide

/-- C3 counterexample: a results-set job with state `completed` and the
unrecognized result string `bogus` makes `get_job_status` raise `KeyError`
(from `status_dict[job["result"]]`), not the backend's
`TreeherderError` Protocol error claimed by the spec. -/
theorem th_bogus_raises_keyerror :
    th_get_job_status thJobBogus = .error (.keyError "bogus") ∧
    th_get_job_status thJobBogus ≠ .error .treeherderError := by
  decide

/-- C3 amended: for a results-set job that reaches the completed-state
branch (coalescing marker null, result not the `unknown` sentinel, state
`completed`), a result string in the fixed table maps exactly as the table
prescribes (success→SUCCESS, busted→FAILURE, testfailed→FAILURE,
skipped→SKIPPED, exception→EXCEPTION, retry→RETRY, usercancel→CANCELLED),
and a result string absent from the table raises `KeyError` (not the
Treeherder Protocol error). -/
theorem th_completed_table (job : TreeherderJob)
    (h1 : job.job_coalesced_to_guid = none)
    (h2 : job.result ≠ "unknown")
    (h3 : job.state = "completed") :
    (∀ v, lookupTable status_dict job.result = some v → th_get_job_status job = .ok v) ∧
    (lookupTable status_dict job.result = none →
      th_get_job_status job = .error (.keyError job.result)) ∧
    (lookupTable status_dict "success" = some SUCCESS ∧
     lookupTable status_dict "busted" = some FAILURE ∧
     lookupTable status_dict "testfailed" = some FAILURE ∧
     lookupTable status_dict "skipped" = some SKIPPED ∧
     lookupTable status_dict "exception" = some EXCEPTION ∧
     lookupTable status_dict "retry" = some RETRY ∧
     lookupTable status_dict "usercancel" = some CANCELLED) := by
  refine ⟨fun v hv => ?_, fun hv => ?_, by decide⟩
  · simp [th_get_job_status, h1, h2, h3, hv]
  · simp [th_get_job_status, h1, h2, h3, hv]

/-- C3 witness: a concrete completed job with result `busted` maps to
FAILURE through the table. -/
theorem th_completed_table_witness : th_get_job_status thJobBusted = .ok FAILURE :=
  (th_completed_table thJobBusted rfl (by decide) rfl).1 FAILURE (by decide)

/-- C4 counterexample: the raw result strings do not map to pairwise
distinct vocabulary values — `busted` and `testfailed` are different raw
strings that both map to FAILURE. -/
theorem status_table_not_injective :
    lookupTable status_dict "busted" = some FAILURE ∧
    lookupTable status_dict "testfailed" = some FAILURE ∧
    "busted" ≠ "testfailed" := by
  decide

/-- C4 amended: the table is functional — no raw result string maps to two
different vocabulary values (its keys are pairwise distinct) — but the
values are not pairwise distinct. -/
theorem status_table_functional :
    ∀ k v1 v2, (k, v1) ∈ status_dict → (k, v2) ∈ status_dict → v1 = v2 := by
  intro k v1 v2 h1 h2
  simp only [status_dict, List.mem_cons, List.not_mem_nil, or_false, Prod.mk.injEq] at h1 h2
  rcases h1 with ⟨rfl, rfl⟩ | ⟨rfl, rfl⟩ | ⟨rfl, rfl⟩ | ⟨rfl, rfl⟩ | ⟨rfl, rfl⟩ |
    ⟨rfl, rfl⟩ | ⟨rfl, rfl⟩ <;> simp_all

/-- C4 amended witness: the table lookup at the concrete key `busted`. -/
theorem status_table_functional_witness : FAILURE = FAILURE :=
  status_table_functional "busted" FAILURE FAILURE (by decide) (by decide)

/-- C8: a polling job with no status field resolves to PENDING; a present
but null status resolves to RUNNING when no end time is present and to
UNKNOWN otherwise. -/
theorem pending_running_unknown_mapping (w : World) (c : Cache) (job : BuildapiJob) :
    (job.status = none → (get_job_status w c job).1 = .ok PENDING) ∧
    (job.status = some none → job.endtime = none →
      (get_job_status w c job).1 = .ok RUNNING) ∧
    (job.status = some none → job.endtime ≠ none →
      (get_job_status w c job).1 = .ok UNKNOWN) := by
  refine ⟨fun h => ?_, fun h he => ?_, fun h he => ?_⟩
  · simp [get_job_status, h]
  · simp [get_job_status, h, he]
  · simp [get_job_status, h, he]

/-- C8 witness: the three mapping rules at concrete job records. -/
theorem pending_running_unknown_mapping_witness :
    (get_job_status worldRolling [] jobNoStatus).1 = .ok PENDING ∧
    (get_job_status worldRolling [] jobNullStatus).1 = .ok RUNNING ∧
    (get_job_status worldRolling [] jobNullStatusEnded).1 = .ok UNKNOWN :=
  ⟨(pending_running_unknown_mapping worldRolling [] jobNoStatus).1 rfl,
   (pending_running_unknown_mapping worldRolling [] jobNullStatus).2.1 rfl rfl,
   (pending_running_unknown_mapping worldRolling [] jobNullStatusEnded).2.2 rfl (by decide)⟩

/-- C9: identifier extraction — with a `"requests"` key the result is the
`request_id` of the first nested request; without it the top-level
`"request_id"` field is returned, so the nested-request shape is not
required. -/
theorem request_id_extraction (job : BuildapiJob) (req : BuildRequest)
    (rest : List BuildRequest) (rid : Nat) :
    (job.requests = some (req :: rest) →
      get_buildapi_request_id job = .ok req.request_id) ∧
    (job.requests = none → job.request_id = some rid →
      get_buildapi_request_id job = .ok rid) := by
  constructor
  · intro h; simp [get_buildapi_request_id, h]
  · intro h h2; simp [get_buildapi_request_id, h, h2]

/-- C9 witness: a record with both shapes prefers the nested request, a
record with only the top-level field uses it. -/
theorem request_id_extraction_witness :
    get_buildapi_request_id jobBothIds = .ok 8 ∧
    get_buildapi_request_id jobTopId = .ok 99 :=
  ⟨(request_id_extraction jobBothIds ⟨8, 0, "r"⟩ [] 0).1 rfl,
   (request_id_extraction jobTopId ⟨8, 0, "r"⟩ [] 99).2 rfl rfl⟩

/-- C10: the polling backend never returns SKIPPED — no successful outcome
of `get_job_status` equals the SKIPPED code 3 (it is neither in the
pass-through set nor SUCCESS), and a job whose numeric status is 3 raises
the backend's `BuildapiError` Protocol error. -/
theorem skipped_never_returned (w : World) (c : Cache) (job : BuildapiJob) :
    (∀ r, (get_job_status w c job).1 = .ok r → r ≠ SKIPPED) ∧
    (job.status = some (some SKIPPED) →
      (get_job_status w c job).1 = .error .buildapiError) := by
  constructor
  · intro r hr
    unfold get_job_status is_coalesced at hr
    repeat' split at hr
    all_goals
      simp only [PENDING, RUNNING, COALESCED, UNKNOWN, SUCCESS, WARNING, FAILURE,
        SKIPPED, EXCEPTION, RETRY, CANCELLED] at *
    all_goals simp_all
    all_goals omega
  · intro h
    simp [get_job_status, h, SKIPPED, SUCCESS, WARNING, FAILURE, EXCEPTION, RETRY,
      CANCELLED]

/-- C10 witness: a concrete job with numeric status 3 raises
`BuildapiError`. -/
theorem skipped_never_returned_witness :
    (get_job_status worldRolling [] jobSkipped).1 = .error .buildapiError :=
  (skipped_never_returned worldRolling [] jobSkipped).2 rfl

/-- C6: for a SUCCESS-reported polling job whose first request resolves to
an archival record, equal 12-character revision prefixes give SUCCESS and
differing prefixes give COALESCED. -/
theorem success_archival_revision_check (w : World) (c : Cache) (job : BuildapiJob)
    (req : BuildRequest) (rest : List BuildRequest) (a : BuildjsonJob)
    (hst : job.status = some (some SUCCESS))
    (hrq : job.requests = some (req :: rest))
    (hfound : (query_job_data w c req.complete_at req.request_id).1 = .ok a) :
    (a.properties_revision.take 12 = req.revision.take 12 →
      (get_job_status w c job).1 = .ok SUCCESS) ∧
    (a.properties_revision.take 12 ≠ req.revision.take 12 →
      (get_job_status w c job).1 = .ok COALESCED) := by
  constructor <;> intro hcmp <;>
    simp [get_job_status, is_coalesced, hst, hrq, hfound, hcmp, SUCCESS, WARNING,
      FAILURE, EXCEPTION, RETRY, CANCELLED]

/-- C6 witness: concrete matching and differing revisions against the same
archival record. -/
theorem success_archival_revision_check_witness :
    (get_job_status worldArchival [] jobRevMatching).1 = .ok SUCCESS ∧
    (get_job_status worldArchival [] jobRevDiffering).1 = .ok COALESCED :=
  ⟨(success_archival_revision_check worldArchival [] jobRevMatching requestMatching
      [] archivalRecord rfl rfl (by decide)).1 (by decide),
   (success_archival_revision_check worldArchival [] jobRevDiffering requestDiffering
      [] archivalRecord rfl rfl (by decide)).2 (by decide)⟩

/-- C5: for a completion timestamp at least 4 hours old, the archival
resolver (a) re-fetches the partition of the current UTC day on every call
and leaves the cache untouched, (b) for a strictly past day fetches on a
cache miss and inserts the partition, serves a cache hit without any
fetch, (c) never invalidates a cached entry, and (d) across two successive
resolutions of the same past day issues at most one fetch of that day
file. -/
theorem query_day_partition_caching (w : World) (c : Cache) (t : Int) (rid : Nat)
    (hage : 14400 ≤ w.now - t) :
    (utc_day w.now = utc_day t →
      (query_job_data w c t rid).2.1 = c ∧
      (query_job_data w c t rid).2.2 = [builds_day_file (utc_day t)]) ∧
    (utc_day w.now ≠ utc_day t →
      (lookupDay c (utc_day t) = none →
        (query_job_data w c t rid).2.2 = [builds_day_file (utc_day t)] ∧
        lookupDay (query_job_data w c t rid).2.1 (utc_day t) =
          some (w.buildsDay (utc_day t))) ∧
      (∀ js, lookupDay c (utc_day t) = some js →
        (query_job_data w c t rid).2.2 = [] ∧ (query_job_data w c t rid).2.1 = c)) ∧
    (∀ d js, lookupDay c d = some js →
      lookupDay (query_job_data w c t rid).2.1 d = some js) ∧
    (utc_day w.now ≠ utc_day t →
      List.count (builds_day_file (utc_day t))
        ((query_job_data w c t rid).2.2 ++
          (query_job_data w (query_job_data w c t rid).2.1 t rid).2.2) ≤ 1) := by
  have hlt : ¬ (w.now - t < 14400) := by omega
  have h1 : utc_day w.now = utc_day t → ∀ c2 : Cache,
      (query_job_data w c2 t rid).2 = (c2, [builds_day_file (utc_day t)]) := by
    intro he c2
    simp only [query_job_data, if_neg hlt, if_pos he]
    cases find_job rid (w.buildsDay (utc_day t)) <;> rfl
  have h2 : utc_day w.now ≠ utc_day t → ∀ c2 : Cache,
      lookupDay c2 (utc_day t) = none →
      (query_job_data w c2 t rid).2 =
        ((utc_day t, w.buildsDay (utc_day t)) :: c2, [builds_day_file (utc_day t)]) := by
    intro he c2 hn
    simp only [query_job_data, if_neg hlt, if_neg he, hn]
    cases find_job rid (w.buildsDay (utc_day t)) <;> rfl
  have h3 : utc_day w.now ≠ utc_day t → ∀ (c2 : Cache) (js : List BuildjsonJob),
      lookupDay c2 (utc_day t) = some js →
      (query_job_data w c2 t rid).2 = (c2, []) := by
    intro he c2 js hs
    simp only [query_job_data, if_neg hlt, if_neg he, hs]
    cases find_job rid js <;> rfl
  refine ⟨fun he => ?_, fun he => ⟨fun hn => ?_, fun js hs => ?_⟩, fun d js h => ?_,
    fun he => ?_⟩
  · rw [h1 he c]
    exact ⟨rfl, rfl⟩
  · rw [h2 he c hn]
    refine ⟨rfl, ?_⟩
    simp [lookupDay]
  · rw [h3 he c js hs]
    exact ⟨rfl, rfl⟩
  · by_cases he : utc_day w.now = utc_day t
    · rw [h1 he c]
      exact h
    · cases hn : lookupDay c (utc_day t) with
      | none =>
        rw [h2 he c hn]
        by_cases hd : d = utc_day t
        · subst hd
          rw [h] at hn
          cases hn
        · simp [lookupDay, hd, h]
      | some js2 =>
        rw [h3 he c js2 hn]
        exact h
  · cases hn : lookupDay c (utc_day t) with
    | none =>
      have hfst := h2 he c hn
      have hsnd : lookupDay (query_job_data w c t rid).2.1 (utc_day t) =
          some (w.buildsDay (utc_day t)) := by
        rw [hfst]
        simp [lookupDay]
      have := h3 he (query_job_data w c t rid).2.1 (w.buildsDay (utc_day t)) hsnd
      rw [this, hfst]
      simp
    | some js =>
      have hfst := h3 he c js hn
      have hsnd : lookupDay (query_job_data w c t rid).2.1 (utc_day t) = some js := by
        rw [hfst]
        exact hn
      have := h3 he (query_job_data w c t rid).2.1 js hsnd
      rw [this, hfst]
      simp

/-- C5 witness: a concrete past-day resolution against `worldDay` (current
day 11, completion day 0): a miss on the empty cache issues one fetch and
caches day 0. -/
theorem query_day_partition_caching_witness :
    (query_job_data worldDay [] 100 42).2.2 = [builds_day_file (utc_day 100)] ∧
    lookupDay (query_job_data worldDay [] 100 42).2.1 (utc_day 100) =
      some (worldDay.buildsDay (utc_day 100)) :=
  ((query_day_partition_caching worldDay [] 100 42 (by decide)).2.1
    (by decide)).1 (by decide)

/-- The empty cache agrees with any world. -/
theorem cacheConsistent_nil (w : World) : CacheConsistent w [] := by
  intro d js h
  simp [lookupDay] at h

/-- Under a consistent cache the stateful resolver computes the pure value
and preserves consistency. -/
theorem query_job_data_spec (w : World) (c : Cache) (t : Int) (rid : Nat)
    (hc : CacheConsistent w c) :
    (query_job_data w c t rid).1 = query_job_data_pure w t rid ∧
    CacheConsistent w (query_job_data w c t rid).2.1 := by
  by_cases h1 : w.now - t < 14400
  · simp only [query_job_data, query_job_data_pure, if_pos h1]
    cases hf : find_job rid w.builds4hr <;> exact ⟨rfl, hc⟩
  · by_cases h2 : utc_day w.now = utc_day t
    · simp only [query_job_data, query_job_data_pure, if_neg h1, if_pos h2]
      cases hf : find_job rid (w.buildsDay (utc_day t)) <;> exact ⟨rfl, hc⟩
    · cases hn : lookupDay c (utc_day t) with
      | some js =>
        have hjs : js = w.buildsDay (utc_day t) := hc _ _ hn
        simp only [query_job_data, query_job_data_pure, if_neg h1, if_neg h2, hn]
        subst hjs
        cases hf : find_job rid (w.buildsDay (utc_day t)) <;> exact ⟨rfl, hc⟩
      | none =>
        have hc2 : CacheConsistent w ((utc_day t, w.buildsDay (utc_day t)) :: c) := by
          intro d js hl
          simp only [lookupDay] at hl
          by_cases hd : d = utc_day t
          · rw [if_pos hd] at hl
            cases hl
            rw [hd]
          · rw [if_neg hd] at hl
            exact hc _ _ hl
        simp only [query_job_data, query_job_data_pure, if_neg h1, if_neg h2, hn]
        cases hf : find_job rid (w.buildsDay (utc_day t)) <;> exact ⟨rfl, hc2⟩

/-- Under a consistent cache the stateful status resolution computes the
pure status and preserves consistency. -/
theorem get_job_status_spec (w : World) (c : Cache) (job : BuildapiJob)
    (hc : CacheConsistent w c) :
    (get_job_status w c job).1 = get_job_status_pure w job ∧
    CacheConsistent w (get_job_status w c job).2.1 := by
  unfold get_job_status get_job_status_pure is_coalesced
  cases hst : job.status with
  | none => exact ⟨rfl, hc⟩
  | some s =>
    cases s with
    | none =>
      dsimp only
      by_cases he : job.endtime = none
      · rw [if_pos he, if_pos he]
        exact ⟨rfl, hc⟩
      · rw [if_neg he, if_neg he]
        exact ⟨rfl, hc⟩
    | some v =>
      dsimp only
      by_cases hp : v = WARNING ∨ v = FAILURE ∨ v = EXCEPTION ∨ v = RETRY ∨ v = CANCELLED
      · rw [if_pos hp, if_pos hp]
        exact ⟨rfl, hc⟩
      · by_cases hs : v = SUCCESS
        · rw [if_neg hp, if_neg hp, if_pos hs, if_pos hs]
          cases hrq : job.requests with
          | none => exact ⟨rfl, hc⟩
          | some rl =>
            cases rl with
            | nil => exact ⟨rfl, hc⟩
            | cons req rs =>
              dsimp only
              obtain ⟨hv, hcons⟩ := query_job_data_spec w c req.complete_at req.request_id hc
              rw [hv]
              cases hq : query_job_data_pure w req.complete_at req.request_id with
              | ok sd =>
                dsimp only
                by_cases hcmp : sd.properties_revision.take 12 = req.revision.take 12
                · rw [if_neg (fun hne => hne hcmp), if_neg (fun hne => hne hcmp)]
                  exact ⟨rfl, hcons⟩
                · rw [if_pos hcmp, if_pos hcmp]
                  exact ⟨rfl, hcons⟩
              | error e => exact ⟨rfl, hcons⟩
        · rw [if_neg hp, if_neg hp, if_neg hs, if_neg hs]
          exact ⟨rfl, hc⟩

/-- Membership in the set-insertion helper. -/
theorem mem_insertSet (s : List String) (b x : String) :
    x ∈ insertSet s b ↔ x = b ∨ x ∈ s := by
  unfold insertSet
  by_cases h : b ∈ s
  · simp only [if_pos h]
    constructor
    · exact fun hx => .inr hx
    · rintro (rfl | hx)
      · exact h
      · exact hx
  · simp only [if_neg h]
    exact List.mem_cons

/-- Lookup after a dictionary update. -/
theorem lookupAssoc_updateAssoc (m : List (String × Nat)) (k b : String) (v : Nat) :
    lookupAssoc (updateAssoc m k v) b = if b = k then some v else lookupAssoc m b := by
  induction m with
  | nil => simp [updateAssoc, lookupAssoc]
  | cons p rest ih =>
    obtain ⟨pk, pv⟩ := p
    by_cases h1 : pk = k
    · subst h1
      by_cases h2 : b = pk <;> simp [updateAssoc, lookupAssoc, h2]
    · by_cases h2 : b = pk
      · subst h2
        have hbk : ¬ b = k := h1
        simp [updateAssoc, lookupAssoc, h1, hbk]
      · simp [updateAssoc, lookupAssoc, h1, h2, ih]

/-- Invariants of the aggregation loop, for runs that complete without an
uncaught exception: the wrong-status name set only grows, every processed
job whose (pure) status resolved to a non-target value has its builder
name recorded in the final wrong-status set, and every binding of the
final request-id map either was already present or stems from a processed
job that resolved to the target status. -/
theorem find_all_loop_spec (w : World) (target : Int) :
    ∀ (jobs : List BuildapiJob) (c : Cache) (m : List (String × Nat))
      (right wrong : List String) (m2 : List (String × Nat))
      (right2 wrong2 : List String) (c2 : Cache),
      CacheConsistent w c →
      find_all_loop w target jobs c m right wrong = (.ok (m2, right2, wrong2), c2) →
      ((∀ b, b ∈ wrong → b ∈ wrong2) ∧
       (∀ j, j ∈ jobs → ∀ s, get_job_status_pure w j = .ok s → s ≠ target →
         j.buildername ∈ wrong2) ∧
       (∀ b x, lookupAssoc m2 b = some x → lookupAssoc m b = some x ∨
         ∃ j, j ∈ jobs ∧ j.buildername = b ∧ get_job_status_pure w j = .ok target ∧
           get_buildapi_request_id j = .ok x)) := by
  intro jobs
  induction jobs with
  | nil =>
    intro c m right wrong m2 right2 wrong2 c2 hc hrun
    simp only [find_all_loop, Prod.mk.injEq, Except.ok.injEq] at hrun
    obtain ⟨⟨hm, hr, hw⟩, hcc⟩ := hrun
    subst hm
    subst hw
    exact ⟨fun b hb => hb, fun j hj => absurd hj (List.not_mem_nil j),
      fun b x hx => .inl hx⟩
  | cons job rest ih =>
    intro c m right wrong m2 right2 wrong2 c2 hc hrun
    obtain ⟨hval, hcons⟩ := get_job_status_spec w c job hc
    simp only [find_all_loop] at hrun
    rw [hval] at hrun
    cases hst : get_job_status_pure w job with
    | ok s =>
      rw [hst] at hrun
      dsimp only at hrun
      by_cases hts : s = target
      · rw [if_pos hts] at hrun
        cases hrid : get_buildapi_request_id job with
        | ok rid =>
          rw [hrid] at hrun
          dsimp only at hrun
          obtain ⟨ihmono, ihcomp, ihm⟩ := ih _ _ _ _ _ _ _ _ hcons hrun
          refine ⟨ihmono, ?_, ?_⟩
          · intro j hj s2 hs2 hne
            rcases List.mem_cons.1 hj with rfl | hj2
            · rw [hst] at hs2
              cases hs2
              exact absurd hts hne
            · exact ihcomp j hj2 s2 hs2 hne
          · intro b x hx
            rcases ihm b x hx with hleft | ⟨j, hj, hbn, hpure, hridj⟩
            · rw [lookupAssoc_updateAssoc] at hleft
              by_cases hb : b = job.buildername
              · rw [if_pos hb] at hleft
                cases hleft
                refine .inr ⟨job, List.mem_cons_self job rest, hb.symm, ?_, hrid⟩
                rw [hst, hts]
              · rw [if_neg hb] at hleft
                exact .inl hleft
            · exact .inr ⟨j, List.mem_cons_of_mem job hj, hbn, hpure, hridj⟩
        | error e =>
          rw [hrid] at hrun
          cases e with
          | buildjsonError =>
            dsimp only at hrun
            obtain ⟨ihmono, ihcomp, ihm⟩ := ih _ _ _ _ _ _ _ _ hcons hrun
            refine ⟨ihmono, ?_, ?_⟩
            · intro j hj s2 hs2 hne
              rcases List.mem_cons.1 hj with rfl | hj2
              · rw [hst] at hs2
                cases hs2
                exact absurd hts hne
              · exact ihcomp j hj2 s2 hs2 hne
            · intro b x hx
              rcases ihm b x hx with hleft | ⟨j, hj, hbn, hpure, hridj⟩
              · exact .inl hleft
              · exact .inr ⟨j, List.mem_cons_of_mem job hj, hbn, hpure, hridj⟩
          | buildapiError => simp at hrun
          | treeherderError => simp at hrun
          | pythonException => simp at hrun
          | nameError => simp at hrun
          | keyError k => simp at hrun
          | indexError => simp at hrun
      · rw [if_neg hts] at hrun
        obtain ⟨ihmono, ihcomp, ihm⟩ := ih _ _ _ _ _ _ _ _ hcons hrun
        refine ⟨?_, ?_, ?_⟩
        · intro b hb
          exact ihmono b ((mem_insertSet wrong job.buildername b).2 (.inr hb))
        · intro j hj s2 hs2 hne
          rcases List.mem_cons.1 hj with rfl | hj2
          · exact ihmono _ ((mem_insertSet wrong j.buildername j.buildername).2 (.inl rfl))
          · exact ihcomp j hj2 s2 hs2 hne
        · intro b x hx
          rcases ihm b x hx with hleft | ⟨j, hj, hbn, hpure, hridj⟩
          · exact .inl hleft
          · exact .inr ⟨j, List.mem_cons_of_mem job hj, hbn, hpure, hridj⟩
    | error e =>
      rw [hst] at hrun
      cases e with
      | buildjsonError =>
        dsimp only at hrun
        obtain ⟨ihmono, ihcomp, ihm⟩ := ih _ _ _ _ _ _ _ _ hcons hrun
        refine ⟨ihmono, ?_, ?_⟩
        · intro j hj s2 hs2 hne
          rcases List.mem_cons.1 hj with rfl | hj2
          · rw [hst] at hs2
            cases hs2
          · exact ihcomp j hj2 s2 hs2 hne
        · intro b x hx
          rcases ihm b x hx with hleft | ⟨j, hj, hbn, hpure, hridj⟩
          · exact .inl hleft
          · exact .inr ⟨j, List.mem_cons_of_mem job hj, hbn, hpure, hridj⟩
      | buildapiError => simp at hrun
      | treeherderError => simp at hrun
      | pythonException => simp at hrun
      | nameError => simp at hrun
      | keyError k => simp at hrun
      | indexError => simp at hrun

/-- C7: a completed aggregation run returns a list sorted in ascending
order, and every returned scheduling identifier stems from a job that
resolved to the target status under a builder name none of whose instances
in the scope resolved to a different status — so a builder name with even
one differently-resolved instance contributes nothing, even if another of
its instances matched the target. -/
theorem find_all_mixed_excluded_sorted (w : World) (c : Cache)
    (jobs : List BuildapiJob) (target : Int) (out : List Nat)
    (hc : CacheConsistent w c)
    (hout : (find_all_jobs_by_status w c jobs target).1 = .ok out) :
    List.Sorted (fun a b => a ≤ b) out ∧
    ∀ x, x ∈ out → ∃ j, j ∈ jobs ∧ get_buildapi_request_id j = .ok x ∧
      get_job_status_pure w j = .ok target ∧
      ∀ j2, j2 ∈ jobs → j2.buildername = j.buildername →
        ∀ s, get_job_status_pure w j2 = .ok s → s = target := by
  unfold find_all_jobs_by_status at hout
  cases hrun : find_all_loop w target jobs c [] [] [] with
  | mk res c2 =>
    rw [hrun] at hout
    cases res with
    | error e => simp at hout
    | ok triple =>
      obtain ⟨m, right, wrong⟩ := triple
      simp only [Except.ok.injEq] at hout
      obtain ⟨hmono, hcomp, hm⟩ :=
        find_all_loop_spec w target jobs c [] [] [] m right wrong c2 hc hrun
      constructor
      · rw [← hout]
        exact List.sorted_insertionSort _ _
      · intro x hx
        rw [← hout] at hx
        have hx2 : x ∈ (right.filter fun b => decide (¬ b ∈ wrong)).filterMap
            (lookupAssoc m) := (List.perm_insertionSort _ _).mem_iff.1 hx
        obtain ⟨b, hbmem, hblookup⟩ := List.mem_filterMap.1 hx2
        have hbf := List.mem_filter.1 hbmem
        have hbnotwrong : ¬ b ∈ wrong := by simpa using hbf.2
        rcases hm b x hblookup with hempty | ⟨j, hj, hbn, hpure, hridj⟩
        · simp [lookupAssoc] at hempty
        · refine ⟨j, hj, hridj, hpure, ?_⟩
          intro j2 hj2 hbn2 s hs2
          by_contra hne
          have hwrong := hcomp j2 hj2 s hs2 hne
          rw [hbn2, hbn] at hwrong
          exact hbnotwrong hwrong

/-- C7 witness: a one-job run against an empty cache returns its request
id with the guarantees of the theorem. -/
theorem find_all_mixed_excluded_sorted_witness :
    ∃ j, j ∈ [jobAggGood] ∧ get_buildapi_request_id j = .ok 5 ∧
      get_job_status_pure worldAgg j = .ok FAILURE ∧
      ∀ j2, j2 ∈ [jobAggGood] → j2.buildername = j.buildername →
        ∀ s, get_job_status_pure worldAgg j2 = .ok s → s = FAILURE :=
  (find_all_mixed_excluded_sorted worldAgg [] [jobAggGood] FAILURE [5]
    (cacheConsistent_nil worldAgg) (by decide)).2 5 (by decide)

/-- C2: the spec says an archival lookup failure for one job is skipped
with a logged notice and the remaining jobs still processed; the loop
indeed wraps each job in `try ... except BuildjsonError`, but
`query_job_data` raises a bare `Exception`, which `except BuildjsonError`
does not catch — so one failing lookup aborts the whole aggregation
instead of yielding the good job's id. -/
theorem aggregation_aborts_on_lookup_failure :
    (find_all_jobs_by_status worldAgg [] [jobAggBroken, jobAggGood] FAILURE).1 =
      .error .pythonException ∧
    (find_all_jobs_by_status worldAgg [] [jobAggBroken, jobAggGood] FAILURE).1 ≠
      .ok [5] := by
  decide

end Mozci
